import Mathlib

/-!
Shallow embedding of `src/undo-redo-manager.ts` (class `UndoRedoManager`)
from the automerge-repo-undo-redo repository, together with proofs of the
specification claims about it.

Modelling conventions:
* `DocumentId` is an opaque comparable identifier; we use `String`.
* A scope key in the source is `string | symbol`, where the only symbol in
  play is the reserved `defaultScope`; we model it as a sum of a default
  constructor and named (string) scopes.
* The per-document undo/redo handle is an external collaborator.  The only
  facts about a handle the manager observes are: the boolean its
  `endTransaction(options)` call returns (`effective`), and — for the
  exception-propagation analysis — whether its `undo(scope)` / `redo(scope)`
  call throws (`undoThrows` / `redoThrows`).  Calls the manager makes into
  handles are returned as explicit event lists (traces).
* The two JS records `#undoStack` / `#redoStack` map scope keys to arrays,
  where a key may be absent (`undefined`); we model them as
  `Scope → Option (List Change)`, with `none` for an absent key.  JS array
  `push`/`pop` work at the tail, so a stack list is stored oldest-first and
  the top of the stack is the last element.
-/

abbrev DocumentId := String

/-- Scope keys: the reserved default-scope symbol or a caller-chosen string. -/
inductive Scope where
  | default : Scope
  | named (s : String) : Scope
deriving DecidableEq, Repr

/-- The manager-observable behaviour of one external per-document handle. -/
structure Handle where
  effective : Bool
  undoThrows : Bool
  redoThrows : Bool
deriving DecidableEq, Repr

/-- `type Change = { description: string | undefined; ids: DocumentId[] }`. -/
structure Change where
  description : Option String
  ids : List DocumentId
deriving DecidableEq, Repr

/-- The mutable state of an `UndoRedoManager` instance: the handle registry
`#handles` (a `Map`, modelled as an association list in insertion order) and
the two scope-keyed stack records. -/
structure Manager where
  handles : List (DocumentId × Handle)
  undoStack : Scope → Option (List Change)
  redoStack : Scope → Option (List Change)

/-- The options object of `endTransaction` / `transaction`:
`{ description?, scope?, dependencies? }`. -/
structure UndoRedoOptions where
  description : Option String
  scope : Option Scope
  dependencies : Option (List DocumentId)

/-- Point-update of a scope-keyed stack record. -/
def setStack (f : Scope → Option (List Change)) (s : Scope) (l : List Change) :
    Scope → Option (List Change) :=
  fun s' => if s' = s then some l else f s'

/-- The contents of a stack entry as observed through the code's accessors:
an absent key behaves as an empty stack. -/
def viewStack (f : Scope → Option (List Change)) (s : Scope) : List Change :=
  (f s).getD []

/-- Observed undo-stack contents of scope `s`. -/
def Manager.viewU (m : Manager) (s : Scope) : List Change :=
  viewStack m.undoStack s

/-- Observed redo-stack contents of scope `s`. -/
def Manager.viewR (m : Manager) (s : Scope) : List Change :=
  viewStack m.redoStack s

/-- The fresh manager state: `#undoStack` and `#redoStack` each start with an
empty array for the default scope only. -/
def Manager.init : Manager where
  handles := []
  undoStack := fun s => if s = Scope.default then some [] else none
  redoStack := fun s => if s = Scope.default then some [] else none

/-- The `if (!this.#undoStack[scope])` arm of `getStacks`: materialise an
empty undo stack for a scope whose record entry is absent. -/
def ensureU (m : Manager) (scope : Scope) : Manager :=
  match m.undoStack scope with
  | none => { m with undoStack := setStack m.undoStack scope [] }
  | some _ => m

/-- The `if (!this.#redoStack[scope])` arm of `getStacks`. -/
def ensureR (m : Manager) (scope : Scope) : Manager :=
  match m.redoStack scope with
  | none => { m with redoStack := setStack m.redoStack scope [] }
  | some _ => m

/-- `private getStacks(scope)`: lazily materialises empty stacks for an
unseen scope, then returns (the possibly updated state and) both stacks. -/
def getStacks (m : Manager) (scope : Scope) :
    Manager × List Change × List Change :=
  let m2 := ensureR (ensureU m scope) scope
  (m2, (m2.undoStack scope).getD [], (m2.redoStack scope).getD [])

/-- JS `array.pop()` on a tail-push stack: the last element and the rest,
or `none` for the empty array. -/
def popTail (l : List Change) : Option (Change × List Change) :=
  match l.getLast? with
  | none => none
  | some c => some (c, l.dropLast)

/-- The target handle entries of `endTransaction`: dependency ids paired with
their registered handles, unregistered ids filtered out; without a
dependency list, every registry entry (`[...this.#handles]`). -/
def handleEntries (m : Manager) (deps : Option (List DocumentId)) :
    List (DocumentId × Handle) :=
  match deps with
  | some ds =>
      (ds.map (fun id => (id, m.handles.lookup id))).filterMap
        (fun p => match p.2 with
          | some h => some (p.1, h)
          | none => none)
  | none => m.handles

/-- `startTransaction(dependencies?)`: the handles whose `startTransaction()`
gets invoked, in order (`dependencies.map(get).filter(Boolean)`, else all
registered handles). -/
def startTransaction (m : Manager) (deps : Option (List DocumentId)) :
    List Handle :=
  match deps with
  | some ds => (ds.map (fun id => m.handles.lookup id)).reduceOption
  | none => m.handles.map Prod.snd

/-- The `results` computation in `endTransaction`: map each target entry to
its id when the handle's `endTransaction(options)` reports an effective
change (else `null`), then filter the nulls out. -/
def effectiveIds (entries : List (DocumentId × Handle)) : List DocumentId :=
  (entries.map (fun e => if e.2.effective then some e.1 else none)).reduceOption

/-- `endTransaction(options)`: resolve the scope, collect the effective ids;
on an empty result do nothing and return `undefined`; otherwise push the
combined `Change` onto the scope's undo stack, replace the scope's redo
stack with a fresh empty array, and return the change with its scope. -/
def endTransaction (m : Manager) (options : UndoRedoOptions) :
    Manager × Option (Change × Scope) :=
  let scope := options.scope.getD Scope.default
  let gs := getStacks m scope
  let m1 := gs.1
  let undoStack := gs.2.1
  let results := effectiveIds (handleEntries m1 options.dependencies)
  if results.isEmpty then
    (m1, none)
  else
    let c : Change := { description := options.description, ids := results }
    ({ m1 with
        undoStack := setStack m1.undoStack scope (undoStack ++ [c])
        redoStack := setStack m1.redoStack scope [] },
      some (c, scope))

/-- The `change.ids.forEach` replay loop shared by `#undo` and `#redo`: for
each id in order, look the handle up and — when registered — invoke its
`undo(scope)` (resp. `redo(scope)`); unregistered ids are skipped.  The
result is the list of (id, scope) invocation events, in call order. -/
def replayCalls (handles : List (DocumentId × Handle)) (scope : Scope) :
    List DocumentId → List (DocumentId × Scope)
  | [] => []
  | id :: rest =>
      match handles.lookup id with
      | some _ => (id, scope) :: replayCalls handles scope rest
      | none => replayCalls handles scope rest

/-- `#undo(scope = defaultScope)`: pop the scope's undo stack; on `undefined`
return `undefined`; otherwise replay `handle.undo(scope)` over the popped
change's ids, push the change onto the scope's redo stack and return it with
its scope.  The third component is the trace of handle-undo invocations. -/
def undo (m : Manager) (scope : Scope := Scope.default) :
    Manager × Option (Change × Scope) × List (DocumentId × Scope) :=
  let gs := getStacks m scope
  let m1 := gs.1
  match popTail gs.2.1 with
  | none => (m1, none, [])
  | some (c, rest) =>
      let calls := replayCalls m1.handles scope c.ids
      ({ m1 with
          undoStack := setStack m1.undoStack scope rest
          redoStack := setStack m1.redoStack scope (gs.2.2 ++ [c]) },
        some (c, scope), calls)

/-- `#redo(scope = defaultScope)`: symmetric to `#undo`, popping the redo
stack, replaying `handle.redo(scope)` and pushing onto the undo stack. -/
def redo (m : Manager) (scope : Scope := Scope.default) :
    Manager × Option (Change × Scope) × List (DocumentId × Scope) :=
  let gs := getStacks m scope
  let m1 := gs.1
  match popTail gs.2.2 with
  | none => (m1, none, [])
  | some (c, rest) =>
      let calls := replayCalls m1.handles scope c.ids
      ({ m1 with
          undoStack := setStack m1.undoStack scope (gs.2.1 ++ [c])
          redoStack := setStack m1.redoStack scope rest },
        some (c, scope), calls)

/-- `undos(scope = defaultScope)`: the descriptions of the scope's undo stack
in stored (oldest-first) order, threading the `getStacks` state. -/
def undos (m : Manager) (scope : Scope := Scope.default) :
    Manager × List (Option String) :=
  let gs := getStacks m scope
  (gs.1, gs.2.1.map Change.description)

/-- `redos(scope = defaultScope)`: the descriptions of the scope's redo stack
in stored (oldest-first) order. -/
def redos (m : Manager) (scope : Scope := Scope.default) :
    Manager × List (Option String) :=
  let gs := getStacks m scope
  (gs.1, gs.2.2.map Change.description)

/-- `canUndo(scope = defaultScope)`: `undoStack.length > 0`. -/
def canUndo (m : Manager) (scope : Scope := Scope.default) : Manager × Bool :=
  let gs := getStacks m scope
  (gs.1, decide (0 < gs.2.1.length))

/-- `canRedo(scope = defaultScope)`: `redoStack.length > 0`. -/
def canRedo (m : Manager) (scope : Scope := Scope.default) : Manager × Bool :=
  let gs := getStacks m scope
  (gs.1, decide (0 < gs.2.2.length))

/-- Does the replay loop of `#undo` abort with an exception?  True when some
id of the change has a registered handle whose `undo(scope)` call throws. -/
def undoReplayThrows (handles : List (DocumentId × Handle))
    (ids : List DocumentId) : Bool :=
  ids.any (fun id => match handles.lookup id with
    | some h => h.undoThrows
    | none => false)

/-- As `undoReplayThrows`, for the `#redo` replay loop. -/
def redoReplayThrows (handles : List (DocumentId × Handle))
    (ids : List DocumentId) : Bool :=
  ids.any (fun id => match handles.lookup id with
    | some h => h.redoThrows
    | none => false)

/-- `#undo` with exception propagation made explicit.  The pop mutates the
stored undo stack before the replay loop runs, so if some handle's
`undo(scope)` throws, the operation aborts (`Except.error`) in a state where
the popped change is gone from the undo stack but was never pushed onto the
redo stack. -/
def undoExc (m : Manager) (scope : Scope := Scope.default) :
    Except Manager (Manager × Option (Change × Scope)) :=
  let gs := getStacks m scope
  let m1 := gs.1
  match popTail gs.2.1 with
  | none => Except.ok (m1, none)
  | some (c, rest) =>
      let m2 := { m1 with undoStack := setStack m1.undoStack scope rest }
      if undoReplayThrows m2.handles c.ids then
        Except.error m2
      else
        Except.ok
          ({ m2 with redoStack := setStack m2.redoStack scope (gs.2.2 ++ [c]) },
            some (c, scope))

/-- `#redo` with exception propagation made explicit, symmetric to
`undoExc`. -/
def redoExc (m : Manager) (scope : Scope := Scope.default) :
    Except Manager (Manager × Option (Change × Scope)) :=
  let gs := getStacks m scope
  let m1 := gs.1
  match popTail gs.2.2 with
  | none => Except.ok (m1, none)
  | some (c, rest) =>
      let m2 := { m1 with redoStack := setStack m1.redoStack scope rest }
      if redoReplayThrows m2.handles c.ids then
        Except.error m2
      else
        Except.ok
          ({ m2 with undoStack := setStack m2.undoStack scope (gs.2.1 ++ [c]) },
            some (c, scope))

/-! ### Concrete fixtures used to exercise the operations -/

/-- A handle whose `endTransaction` reports an effective change. -/
def effHandle : Handle := ⟨true, false, false⟩

/-- A handle whose `endTransaction` reports no effective change. -/
def quietHandle : Handle := ⟨false, false, false⟩

/-- A handle whose `undo`/`redo` calls raise an exception. -/
def throwHandle : Handle := ⟨true, true, true⟩

/-- A recorded change naming `doc1`. -/
def changeA : Change := ⟨some "a", ["doc1"]⟩

/-- A recorded change naming `doc1` and the unregistered `doc9`. -/
def changeB : Change := ⟨some "b", ["doc1", "doc9"]⟩

/-- A manager with two registered handles and populated default-scope
stacks. -/
def sampleManager : Manager :=
  ⟨[("doc1", effHandle), ("doc2", quietHandle)],
   fun s => if s = Scope.default then some [changeA, changeB] else none,
   fun s => if s = Scope.default then some [changeA] else none⟩

/-- A manager whose only handle reports no effective change. -/
def quietManager : Manager :=
  ⟨[("doc1", quietHandle)],
   fun s => if s = Scope.default then some [] else none,
   fun s => if s = Scope.default then some [changeA] else none⟩

/-- A manager whose only handle throws on `undo`/`redo`. -/
def throwManager : Manager :=
  ⟨[("doc1", throwHandle)],
   fun s => if s = Scope.default then some [changeA] else none,
   fun s => if s = Scope.default then some [changeA] else none⟩

/-- An options object with a description, no scope override and no
dependency list. -/
def sampleOptions : UndoRedoOptions := ⟨some "edit", none, none⟩

/-! ### Basic lemmas about the state helpers -/

theorem viewStack_setStack (f : Scope → Option (List Change)) (s s' : Scope)
    (l : List Change) :
    viewStack (setStack f s l) s' = if s' = s then l else viewStack f s' := by
  by_cases h : s' = s <;> simp [viewStack, setStack, h]

theorem ensureU_handles (m : Manager) (s : Scope) :
    (ensureU m s).handles = m.handles := by
  unfold ensureU; cases m.undoStack s <;> rfl

theorem ensureU_redoStack (m : Manager) (s : Scope) :
    (ensureU m s).redoStack = m.redoStack := by
  unfold ensureU; cases m.undoStack s <;> rfl

theorem ensureU_at (m : Manager) (s : Scope) :
    (ensureU m s).undoStack s = some (m.viewU s) := by
  unfold ensureU
  cases h : m.undoStack s <;>
    simp [Manager.viewU, viewStack, setStack, h]

theorem ensureU_other (m : Manager) (s s' : Scope) (h : s' ≠ s) :
    (ensureU m s).undoStack s' = m.undoStack s' := by
  unfold ensureU
  cases h2 : m.undoStack s <;> simp [setStack, h]

theorem ensureU_viewU (m : Manager) (s s' : Scope) :
    (ensureU m s).viewU s' = m.viewU s' := by
  by_cases h : s' = s
  · subst h; simp [Manager.viewU, viewStack, ensureU_at]
  · simp [Manager.viewU, viewStack, ensureU_other m s s' h]

theorem ensureR_handles (m : Manager) (s : Scope) :
    (ensureR m s).handles = m.handles := by
  unfold ensureR; cases m.redoStack s <;> rfl

theorem ensureR_undoStack (m : Manager) (s : Scope) :
    (ensureR m s).undoStack = m.undoStack := by
  unfold ensureR; cases m.redoStack s <;> rfl

theorem ensureR_at (m : Manager) (s : Scope) :
    (ensureR m s).redoStack s = some (m.viewR s) := by
  unfold ensureR
  cases h : m.redoStack s <;>
    simp [Manager.viewR, viewStack, setStack, h]

theorem ensureR_other (m : Manager) (s s' : Scope) (h : s' ≠ s) :
    (ensureR m s).redoStack s' = m.redoStack s' := by
  unfold ensureR
  cases h2 : m.redoStack s <;> simp [setStack, h]

theorem ensureR_viewR (m : Manager) (s s' : Scope) :
    (ensureR m s).viewR s' = m.viewR s' := by
  by_cases h : s' = s
  · subst h; simp [Manager.viewR, viewStack, ensureR_at]
  · simp [Manager.viewR, viewStack, ensureR_other m s s' h]

theorem getStacks_handles (m : Manager) (s : Scope) :
    (getStacks m s).1.handles = m.handles := by
  simp [getStacks, ensureR_handles, ensureU_handles]

theorem getStacks_at_u (m : Manager) (s : Scope) :
    (getStacks m s).1.undoStack s = some (m.viewU s) := by
  simp [getStacks, ensureR_undoStack, ensureU_at]

theorem getStacks_at_r (m : Manager) (s : Scope) :
    (getStacks m s).1.redoStack s = some (m.viewR s) := by
  have h : (ensureU m s).viewR s = m.viewR s := by
    simp [Manager.viewR, viewStack, ensureU_redoStack]
  simp [getStacks, ensureR_at, h]

theorem getStacks_other_u (m : Manager) (s s' : Scope) (h : s' ≠ s) :
    (getStacks m s).1.undoStack s' = m.undoStack s' := by
  simp [getStacks, ensureR_undoStack, ensureU_other m s s' h]

theorem getStacks_other_r (m : Manager) (s s' : Scope) (h : s' ≠ s) :
    (getStacks m s).1.redoStack s' = m.redoStack s' := by
  simp [getStacks, ensureR_other _ s s' h, ensureU_redoStack]

theorem getStacks_viewU (m : Manager) (s s' : Scope) :
    (getStacks m s).1.viewU s' = m.viewU s' := by
  by_cases h : s' = s
  · subst h; simp [Manager.viewU, viewStack, getStacks_at_u]
  · simp [Manager.viewU, viewStack, getStacks_other_u m s s' h]

theorem getStacks_viewR (m : Manager) (s s' : Scope) :
    (getStacks m s).1.viewR s' = m.viewR s' := by
  by_cases h : s' = s
  · subst h; simp [Manager.viewR, viewStack, getStacks_at_r]
  · simp [Manager.viewR, viewStack, getStacks_other_r m s s' h]

theorem getStacks_val_u (m : Manager) (s : Scope) :
    (getStacks m s).2.1 = m.viewU s := by
  have h := getStacks_at_u m s
  simp [getStacks] at h ⊢
  simp [h]

theorem getStacks_val_r (m : Manager) (s : Scope) :
    (getStacks m s).2.2 = m.viewR s := by
  have h := getStacks_at_r m s
  simp [getStacks] at h ⊢
  simp [h]

/-! ### Lemmas about the list helpers -/

theorem popTail_concat (l : List Change) (c : Change) :
    popTail (l ++ [c]) = some (c, l) := by
  simp [popTail, List.getLast?_concat, List.dropLast_concat]

theorem popTail_eq_none (l : List Change) : popTail l = none ↔ l = [] := by
  unfold popTail
  cases h : l.getLast? with
  | none =>
      simp [List.getLast?_eq_none_iff] at h
      simp [h]
  | some c =>
      constructor
      · intro hc; cases hc
      · intro hl; subst hl; simp at h

theorem effectiveIds_eq_filter (entries : List (DocumentId × Handle)) :
    effectiveIds entries =
      (entries.filter (fun e => e.2.effective)).map Prod.fst := by
  induction entries with
  | nil => rfl
  | cons e rest ih =>
      by_cases h : e.2.effective <;>
        simp [effectiveIds, List.reduceOption, List.filterMap, h] at ih ⊢ <;>
        simpa [effectiveIds, List.reduceOption] using ih

theorem replayCalls_eq_filter (handles : List (DocumentId × Handle))
    (s : Scope) (ids : List DocumentId) :
    replayCalls handles s ids =
      (ids.filter (fun id => (handles.lookup id).isSome)).map
        (fun id => (id, s)) := by
  induction ids with
  | nil => rfl
  | cons id rest ih =>
      cases h : handles.lookup id <;>
        simp [replayCalls, h, ih]

/-! ### Characterisation lemmas for the operations -/

theorem handleEntries_getStacks (m : Manager) (s : Scope)
    (deps : Option (List DocumentId)) :
    handleEntries (getStacks m s).1 deps = handleEntries m deps := by
  unfold handleEntries
  cases deps <;> simp [getStacks_handles]

theorem undo_pop (m : Manager) (S : Scope) (l : List Change) (c : Change)
    (h : m.viewU S = l ++ [c]) :
    (undo m S).2.1 = some (c, S) ∧
    (undo m S).2.2 = replayCalls m.handles S c.ids ∧
    (undo m S).1.handles = m.handles ∧
    (undo m S).1.viewU S = l ∧
    (undo m S).1.viewR S = m.viewR S ++ [c] ∧
    (∀ s', s' ≠ S →
      (undo m S).1.undoStack s' = m.undoStack s' ∧
      (undo m S).1.redoStack s' = m.redoStack s') := by
  have hval : (getStacks m S).2.1 = l ++ [c] := by rw [getStacks_val_u, h]
  have hpop : popTail (getStacks m S).2.1 = some (c, l) := by
    rw [hval, popTail_concat]
  unfold undo
  simp only [hpop]
  refine ⟨trivial, ?_, ?_, ?_, ?_, ?_⟩
  · simp [getStacks_handles]
  · simp [getStacks_handles]
  · simp [Manager.viewU, viewStack, setStack]
  · simp [Manager.viewR, viewStack, setStack, getStacks_val_r]
  · intro s' hs'
    constructor
    · simp [setStack, hs', getStacks_other_u m S s' hs']
    · simp [setStack, hs', getStacks_other_r m S s' hs']

theorem undo_empty (m : Manager) (S : Scope) (h : m.viewU S = []) :
    (undo m S).2.1 = none ∧
    (undo m S).2.2 = [] ∧
    (undo m S).1.handles = m.handles ∧
    (∀ s', (undo m S).1.viewU s' = m.viewU s' ∧
           (undo m S).1.viewR s' = m.viewR s') := by
  have hval : (getStacks m S).2.1 = [] := by rw [getStacks_val_u, h]
  have hpop : popTail (getStacks m S).2.1 = none := by
    rw [hval]; rfl
  unfold undo
  simp only [hpop]
  refine ⟨trivial, trivial, getStacks_handles m S,
    fun s' => ⟨getStacks_viewU m S s', getStacks_viewR m S s'⟩⟩

theorem redo_pop (m : Manager) (S : Scope) (l : List Change) (c : Change)
    (h : m.viewR S = l ++ [c]) :
    (redo m S).2.1 = some (c, S) ∧
    (redo m S).2.2 = replayCalls m.handles S c.ids ∧
    (redo m S).1.handles = m.handles ∧
    (redo m S).1.viewR S = l ∧
    (redo m S).1.viewU S = m.viewU S ++ [c] ∧
    (∀ s', s' ≠ S →
      (redo m S).1.undoStack s' = m.undoStack s' ∧
      (redo m S).1.redoStack s' = m.redoStack s') := by
  have hval : (getStacks m S).2.2 = l ++ [c] := by rw [getStacks_val_r, h]
  have hpop : popTail (getStacks m S).2.2 = some (c, l) := by
    rw [hval, popTail_concat]
  unfold redo
  simp only [hpop]
  refine ⟨trivial, ?_, ?_, ?_, ?_, ?_⟩
  · simp [getStacks_handles]
  · simp [getStacks_handles]
  · simp [Manager.viewR, viewStack, setStack]
  · simp [Manager.viewU, viewStack, setStack, getStacks_val_u]
  · intro s' hs'
    constructor
    · simp [setStack, hs', getStacks_other_u m S s' hs']
    · simp [setStack, hs', getStacks_other_r m S s' hs']

theorem redo_empty (m : Manager) (S : Scope) (h : m.viewR S = []) :
    (redo m S).2.1 = none ∧
    (redo m S).2.2 = [] ∧
    (redo m S).1.handles = m.handles ∧
    (∀ s', (redo m S).1.viewU s' = m.viewU s' ∧
           (redo m S).1.viewR s' = m.viewR s') := by
  have hval : (getStacks m S).2.2 = [] := by rw [getStacks_val_r, h]
  have hpop : popTail (getStacks m S).2.2 = none := by
    rw [hval]; rfl
  unfold redo
  simp only [hpop]
  refine ⟨trivial, trivial, getStacks_handles m S,
    fun s' => ⟨getStacks_viewU m S s', getStacks_viewR m S s'⟩⟩

theorem endTransaction_success (m : Manager) (options : UndoRedoOptions)
    (h : effectiveIds (handleEntries m options.dependencies) ≠ []) :
    (endTransaction m options).2 =
      some ({ description := options.description,
              ids := effectiveIds (handleEntries m options.dependencies) },
            options.scope.getD Scope.default) ∧
    (endTransaction m options).1.handles = m.handles ∧
    (endTransaction m options).1.viewU (options.scope.getD Scope.default) =
      m.viewU (options.scope.getD Scope.default) ++
        [{ description := options.description,
           ids := effectiveIds (handleEntries m options.dependencies) }] ∧
    (endTransaction m options).1.viewR (options.scope.getD Scope.default) =
      [] ∧
    (∀ s', s' ≠ options.scope.getD Scope.default →
      (endTransaction m options).1.undoStack s' = m.undoStack s' ∧
      (endTransaction m options).1.redoStack s' = m.redoStack s') := by
  have hE : handleEntries (getStacks m (options.scope.getD Scope.default)).1
      options.dependencies = handleEntries m options.dependencies :=
    handleEntries_getStacks m _ options.dependencies
  have hne : (effectiveIds (handleEntries m options.dependencies)).isEmpty =
      false := by
    cases he : effectiveIds (handleEntries m options.dependencies) with
    | nil => exact absurd he h
    | cons a l => rfl
  unfold endTransaction
  simp only [hE, hne, Bool.false_eq_true, if_false]
  refine ⟨trivial, ?_, ?_, ?_, ?_⟩
  · simp [getStacks_handles]
  · simp [Manager.viewU, viewStack, setStack, getStacks_val_u]
  · simp [Manager.viewR, viewStack, setStack]
  · intro s' hs'
    constructor
    · simp [setStack, hs', getStacks_other_u m _ s' hs']
    · simp [setStack, hs', getStacks_other_r m _ s' hs']

theorem endTransaction_noop (m : Manager) (options : UndoRedoOptions)
    (h : effectiveIds (handleEntries m options.dependencies) = []) :
    (endTransaction m options).2 = none ∧
    (endTransaction m options).1.handles = m.handles ∧
    (∀ s', (endTransaction m options).1.viewU s' = m.viewU s' ∧
           (endTransaction m options).1.viewR s' = m.viewR s') := by
  have hE : handleEntries (getStacks m (options.scope.getD Scope.default)).1
      options.dependencies = handleEntries m options.dependencies :=
    handleEntries_getStacks m _ options.dependencies
  unfold endTransaction
  simp only [hE, h, List.isEmpty_nil, if_true]
  refine ⟨trivial, getStacks_handles m _,
    fun s' => ⟨getStacks_viewU m _ s', getStacks_viewR m _ s'⟩⟩

theorem effectiveIds_ne_nil (entries : List (DocumentId × Handle))
    (h : ∃ e ∈ entries, e.2.effective = true) :
    effectiveIds entries ≠ [] := by
  obtain ⟨e, he, heff⟩ := h
  rw [effectiveIds_eq_filter]
  intro hnil
  rcases List.map_eq_nil_iff.mp hnil with hfil
  have := List.filter_eq_nil_iff.mp hfil e he
  simp [heff] at this

theorem effectiveIds_eq_nil (entries : List (DocumentId × Handle))
    (h : ∀ e ∈ entries, e.2.effective = false) :
    effectiveIds entries = [] := by
  rw [effectiveIds_eq_filter]
  have : entries.filter (fun e => e.2.effective) = [] :=
    List.filter_eq_nil_iff.mpr (fun e he => by simp [h e he])
  simp [this]

theorem handleEntries_some_eq (m : Manager) (ds : List DocumentId) :
    handleEntries m (some ds) =
      ds.filterMap (fun id => (m.handles.lookup id).map (fun h => (id, h))) := by
  unfold handleEntries
  induction ds with
  | nil => rfl
  | cons id rest ih =>
      cases h : m.handles.lookup id <;>
        simp [List.filterMap_cons, h] at ih ⊢ <;> exact ih

theorem map_fst_handleEntries (m : Manager) (ds : List DocumentId) :
    (handleEntries m (some ds)).map Prod.fst =
      ds.filter (fun id => (m.handles.lookup id).isSome) := by
  rw [handleEntries_some_eq]
  induction ds with
  | nil => rfl
  | cons id rest ih =>
      cases h : m.handles.lookup id <;>
        simp [List.filterMap_cons, List.filter_cons, h, ih]

theorem startTransaction_some_eq (m : Manager) (ds : List DocumentId) :
    startTransaction m (some ds) =
      ds.filterMap (fun id => m.handles.lookup id) := by
  show (ds.map (fun id => m.handles.lookup id)).reduceOption = _
  rw [List.reduceOption, List.filterMap_map]
  simp

theorem endTransaction_frame (m : Manager) (options : UndoRedoOptions)
    (s' : Scope) (hs' : s' ≠ options.scope.getD Scope.default) :
    (endTransaction m options).1.undoStack s' = m.undoStack s' ∧
    (endTransaction m options).1.redoStack s' = m.redoStack s' := by
  simp only [endTransaction]
  split
  · exact ⟨getStacks_other_u m _ s' hs', getStacks_other_r m _ s' hs'⟩
  · constructor
    · simp [setStack, hs', getStacks_other_u m _ s' hs']
    · simp [setStack, hs', getStacks_other_r m _ s' hs']

theorem undo_frame (m : Manager) (S s' : Scope) (hs' : s' ≠ S) :
    (undo m S).1.undoStack s' = m.undoStack s' ∧
    (undo m S).1.redoStack s' = m.redoStack s' := by
  simp only [undo]
  split
  · exact ⟨getStacks_other_u m S s' hs', getStacks_other_r m S s' hs'⟩
  · constructor
    · simp [setStack, hs', getStacks_other_u m S s' hs']
    · simp [setStack, hs', getStacks_other_r m S s' hs']

theorem redo_frame (m : Manager) (S s' : Scope) (hs' : s' ≠ S) :
    (redo m S).1.undoStack s' = m.undoStack s' ∧
    (redo m S).1.redoStack s' = m.redoStack s' := by
  simp only [redo]
  split
  · exact ⟨getStacks_other_u m S s' hs', getStacks_other_r m S s' hs'⟩
  · constructor
    · simp [setStack, hs', getStacks_other_u m S s' hs']
    · simp [setStack, hs', getStacks_other_r m S s' hs']

/-! ### Query value lemmas -/

theorem undos_val (m : Manager) (S : Scope) :
    (undos m S).2 = (m.viewU S).map Change.description := by
  show (getStacks m S).2.1.map Change.description = _
  rw [getStacks_val_u]

theorem redos_val (m : Manager) (S : Scope) :
    (redos m S).2 = (m.viewR S).map Change.description := by
  show (getStacks m S).2.2.map Change.description = _
  rw [getStacks_val_r]

theorem canUndo_val (m : Manager) (S : Scope) :
    (canUndo m S).2 = decide (0 < (m.viewU S).length) := by
  show decide (0 < (getStacks m S).2.1.length) = _
  rw [getStacks_val_u]

theorem canRedo_val (m : Manager) (S : Scope) :
    (canRedo m S).2 = decide (0 < (m.viewR S).length) := by
  show decide (0 < (getStacks m S).2.2.length) = _
  rw [getStacks_val_r]

/-! ### The claims -/

/-- C1: whenever at least one target handle's `endTransaction(options)`
returns true, the manager pushes `{description: options.description, ids:
exactly the ids of the handles that reported an effective change, in
iteration order}` onto the resolved scope's undo stack, replaces that
scope's redo stack with the empty stack, and returns that change together
with the resolved scope. -/
theorem C1_endTransaction_records (m : Manager) (options : UndoRedoOptions)
    (h : ∃ e ∈ handleEntries m options.dependencies, e.2.effective = true) :
    (endTransaction m options).2 =
      some ({ description := options.description,
              ids := ((handleEntries m options.dependencies).filter
                        (fun e => e.2.effective)).map Prod.fst },
            options.scope.getD Scope.default) ∧
    (endTransaction m options).1.viewU (options.scope.getD Scope.default) =
      m.viewU (options.scope.getD Scope.default) ++
        [{ description := options.description,
           ids := ((handleEntries m options.dependencies).filter
                     (fun e => e.2.effective)).map Prod.fst }] ∧
    (endTransaction m options).1.viewR (options.scope.getD Scope.default) =
      [] := by
  have hne := effectiveIds_ne_nil _ h
  obtain ⟨h1, _h2, h3, h4, _h5⟩ := endTransaction_success m options hne
  rw [effectiveIds_eq_filter] at h1 h3
  exact ⟨h1, h3, h4⟩

/-- Witness for C1: a successful transaction on the sample manager. -/
theorem C1_endTransaction_records_witness :
    (∃ e ∈ handleEntries sampleManager sampleOptions.dependencies,
        e.2.effective = true) ∧
    ((endTransaction sampleManager sampleOptions).2 =
      some ({ description := sampleOptions.description,
              ids := ((handleEntries sampleManager
                        sampleOptions.dependencies).filter
                        (fun e => e.2.effective)).map Prod.fst },
            sampleOptions.scope.getD Scope.default) ∧
     (endTransaction sampleManager sampleOptions).1.viewU
        (sampleOptions.scope.getD Scope.default) =
       sampleManager.viewU (sampleOptions.scope.getD Scope.default) ++
         [{ description := sampleOptions.description,
            ids := ((handleEntries sampleManager
                      sampleOptions.dependencies).filter
                      (fun e => e.2.effective)).map Prod.fst }] ∧
     (endTransaction sampleManager sampleOptions).1.viewR
        (sampleOptions.scope.getD Scope.default) = []) :=
  ⟨by decide,
   C1_endTransaction_records sampleManager sampleOptions (by decide)⟩

/-- C2: with a non-empty undo stack for scope `S` topped by change `c`,
`undo` followed by `redo` restores the stack contents of every scope and
both calls return `c` together with `S`. -/
theorem C2_round_trip (m : Manager) (S : Scope) (l : List Change) (c : Change)
    (h : m.viewU S = l ++ [c]) :
    (undo m S).2.1 = some (c, S) ∧
    (redo (undo m S).1 S).2.1 = some (c, S) ∧
    (∀ s', (redo (undo m S).1 S).1.viewU s' = m.viewU s' ∧
           (redo (undo m S).1 S).1.viewR s' = m.viewR s') := by
  obtain ⟨hu1, _hu2, _hu3, hu4, hu5, hu6⟩ := undo_pop m S l c h
  obtain ⟨hr1, _hr2, _hr3, hr4, hr5, hr6⟩ :=
    redo_pop (undo m S).1 S (m.viewR S) c hu5
  refine ⟨hu1, hr1, ?_⟩
  intro s'
  by_cases hs : s' = S
  · subst hs
    refine ⟨?_, hr4⟩
    rw [hr5, hu4, ← h]
  · obtain ⟨hfu, hfr⟩ := hr6 s' hs
    obtain ⟨hgu, hgr⟩ := hu6 s' hs
    constructor
    · show viewStack (redo (undo m S).1 S).1.undoStack s' = _
      rw [viewStack, hfu, hgu]; rfl
    · show viewStack (redo (undo m S).1 S).1.redoStack s' = _
      rw [viewStack, hfr, hgr]; rfl

/-- Witness for C2: round trip on the sample manager, default scope. -/
theorem C2_round_trip_witness :
    (sampleManager.viewU Scope.default = [changeA] ++ [changeB]) ∧
    ((undo sampleManager Scope.default).2.1 = some (changeB, Scope.default) ∧
     (redo (undo sampleManager Scope.default).1 Scope.default).2.1 =
       some (changeB, Scope.default) ∧
     (∀ s', (redo (undo sampleManager Scope.default).1 Scope.default).1.viewU
              s' = sampleManager.viewU s' ∧
            (redo (undo sampleManager Scope.default).1 Scope.default).1.viewR
              s' = sampleManager.viewR s')) :=
  ⟨by decide,
   C2_round_trip sampleManager Scope.default [changeA] changeB (by decide)⟩

/-- C3: an `endTransaction` in which no target handle reports an effective
change pushes nothing, leaves every stack's contents unchanged, and returns
the `undefined` sentinel instead of an error. -/
theorem C3_noop_endTransaction (m : Manager) (options : UndoRedoOptions)
    (h : ∀ e ∈ handleEntries m options.dependencies, e.2.effective = false) :
    (endTransaction m options).2 = none ∧
    (∀ s', (endTransaction m options).1.viewU s' = m.viewU s' ∧
           (endTransaction m options).1.viewR s' = m.viewR s') := by
  obtain ⟨h1, _h2, h3⟩ := endTransaction_noop m options (effectiveIds_eq_nil _ h)
  exact ⟨h1, h3⟩

/-- Witness for C3: the quiet manager's only handle reports no change, and
its non-empty redo stack survives. -/
theorem C3_noop_endTransaction_witness :
    (∀ e ∈ handleEntries quietManager sampleOptions.dependencies,
        e.2.effective = false) ∧
    ((endTransaction quietManager sampleOptions).2 = none ∧
     (∀ s', (endTransaction quietManager sampleOptions).1.viewU s' =
              quietManager.viewU s' ∧
            (endTransaction quietManager sampleOptions).1.viewR s' =
              quietManager.viewR s')) :=
  ⟨by decide, C3_noop_endTransaction quietManager sampleOptions (by decide)⟩

/-- C4: an `endTransaction` resolving to scope `A`, an `undo` on `A` or a
`redo` on `A` leaves the undo and redo stacks of every scope `B ≠ A`
untouched. -/
theorem C4_scope_isolation (m : Manager) (options : UndoRedoOptions)
    (A B : Scope) (hA : options.scope.getD Scope.default = A) (hB : B ≠ A) :
    ((endTransaction m options).1.undoStack B = m.undoStack B ∧
     (endTransaction m options).1.redoStack B = m.redoStack B) ∧
    ((undo m A).1.undoStack B = m.undoStack B ∧
     (undo m A).1.redoStack B = m.redoStack B) ∧
    ((redo m A).1.undoStack B = m.undoStack B ∧
     (redo m A).1.redoStack B = m.redoStack B) := by
  subst hA
  exact ⟨endTransaction_frame m options B hB, undo_frame m _ B hB,
    redo_frame m _ B hB⟩

/-- Witness for C4: operations on the default scope leave `panelA` alone. -/
theorem C4_scope_isolation_witness :
    (sampleOptions.scope.getD Scope.default = Scope.default ∧
     Scope.named "panelA" ≠ Scope.default) ∧
    (((endTransaction sampleManager sampleOptions).1.undoStack
        (Scope.named "panelA") = sampleManager.undoStack (Scope.named "panelA") ∧
      (endTransaction sampleManager sampleOptions).1.redoStack
        (Scope.named "panelA") = sampleManager.redoStack (Scope.named "panelA")) ∧
     ((undo sampleManager Scope.default).1.undoStack (Scope.named "panelA") =
        sampleManager.undoStack (Scope.named "panelA") ∧
      (undo sampleManager Scope.default).1.redoStack (Scope.named "panelA") =
        sampleManager.redoStack (Scope.named "panelA")) ∧
     ((redo sampleManager Scope.default).1.undoStack (Scope.named "panelA") =
        sampleManager.undoStack (Scope.named "panelA") ∧
      (redo sampleManager Scope.default).1.redoStack (Scope.named "panelA") =
        sampleManager.redoStack (Scope.named "panelA"))) :=
  ⟨⟨by decide, by decide⟩,
   C4_scope_isolation sampleManager sampleOptions Scope.default
     (Scope.named "panelA") (by decide) (by decide)⟩

/-- C5: on a non-empty undo stack, `undo(S)` pops the top change, invokes
`handle.undo(S)` for each of its ids in list order exactly when the id is
registered (silently skipping the rest), pushes the change onto the redo
stack and returns it with `S`; symmetrically for `redo(S)`. -/
theorem C5_dispatch_replay (m : Manager) (S : Scope)
    (lu lr : List Change) (cu cr : Change) :
    (m.viewU S = lu ++ [cu] →
      (undo m S).2.1 = some (cu, S) ∧
      (undo m S).2.2 =
        (cu.ids.filter (fun id => (m.handles.lookup id).isSome)).map
          (fun id => (id, S)) ∧
      (undo m S).1.viewU S = lu ∧
      (undo m S).1.viewR S = m.viewR S ++ [cu]) ∧
    (m.viewR S = lr ++ [cr] →
      (redo m S).2.1 = some (cr, S) ∧
      (redo m S).2.2 =
        (cr.ids.filter (fun id => (m.handles.lookup id).isSome)).map
          (fun id => (id, S)) ∧
      (redo m S).1.viewR S = lr ∧
      (redo m S).1.viewU S = m.viewU S ++ [cr]) := by
  constructor
  · intro h
    obtain ⟨h1, h2, _h3, h4, h5, _h6⟩ := undo_pop m S lu cu h
    rw [replayCalls_eq_filter] at h2
    exact ⟨h1, h2, h4, h5⟩
  · intro h
    obtain ⟨h1, h2, _h3, h4, h5, _h6⟩ := redo_pop m S lr cr h
    rw [replayCalls_eq_filter] at h2
    exact ⟨h1, h2, h4, h5⟩

/-- Witness for C5: undoing `changeB` (which names the unregistered `doc9`)
and redoing `changeA` on the sample manager. -/
theorem C5_dispatch_replay_witness :
    (sampleManager.viewU Scope.default = [changeA] ++ [changeB] ∧
     ((undo sampleManager Scope.default).2.1 = some (changeB, Scope.default) ∧
      (undo sampleManager Scope.default).2.2 =
        (changeB.ids.filter
          (fun id => (sampleManager.handles.lookup id).isSome)).map
          (fun id => (id, Scope.default)) ∧
      (undo sampleManager Scope.default).1.viewU Scope.default = [changeA] ∧
      (undo sampleManager Scope.default).1.viewR Scope.default =
        sampleManager.viewR Scope.default ++ [changeB])) ∧
    (sampleManager.viewR Scope.default = [] ++ [changeA] ∧
     ((redo sampleManager Scope.default).2.1 = some (changeA, Scope.default) ∧
      (redo sampleManager Scope.default).2.2 =
        (changeA.ids.filter
          (fun id => (sampleManager.handles.lookup id).isSome)).map
          (fun id => (id, Scope.default)) ∧
      (redo sampleManager Scope.default).1.viewR Scope.default = [] ∧
      (redo sampleManager Scope.default).1.viewU Scope.default =
        sampleManager.viewU Scope.default ++ [changeA])) :=
  ⟨⟨by decide,
    (C5_dispatch_replay sampleManager Scope.default [changeA] [] changeB
      changeA).1 (by decide)⟩,
   ⟨by decide,
    (C5_dispatch_replay sampleManager Scope.default [changeA] [] changeB
      changeA).2 (by decide)⟩⟩

/-- C6: the target handles of `startTransaction` and `endTransaction` are,
given a dependency list, the registered handles of exactly the listed
identifiers that are registered, in list order, unregistered identifiers
silently dropped; without a dependency list, all registered handles. -/
theorem C6_target_selection (m : Manager) (ds : List DocumentId) :
    handleEntries m none = m.handles ∧
    startTransaction m none = m.handles.map Prod.snd ∧
    handleEntries m (some ds) =
      ds.filterMap (fun id => (m.handles.lookup id).map (fun h => (id, h))) ∧
    (handleEntries m (some ds)).map Prod.fst =
      ds.filter (fun id => (m.handles.lookup id).isSome) ∧
    startTransaction m (some ds) =
      ds.filterMap (fun id => m.handles.lookup id) :=
  ⟨rfl, rfl, handleEntries_some_eq m ds, map_fst_handleEntries m ds,
   startTransaction_some_eq m ds⟩

/-- C7: `undo(S)` on an empty undo stack returns the `undefined` sentinel,
performs no handle call and leaves every stack's contents unchanged;
symmetrically `redo(S)` on an empty redo stack. -/
theorem C7_empty_stack_noop (m : Manager) (S : Scope) :
    (m.viewU S = [] →
      (undo m S).2.1 = none ∧ (undo m S).2.2 = [] ∧
      (∀ s', (undo m S).1.viewU s' = m.viewU s' ∧
             (undo m S).1.viewR s' = m.viewR s')) ∧
    (m.viewR S = [] →
      (redo m S).2.1 = none ∧ (redo m S).2.2 = [] ∧
      (∀ s', (redo m S).1.viewU s' = m.viewU s' ∧
             (redo m S).1.viewR s' = m.viewR s')) := by
  constructor
  · intro h
    obtain ⟨h1, h2, _h3, h4⟩ := undo_empty m S h
    exact ⟨h1, h2, h4⟩
  · intro h
    obtain ⟨h1, h2, _h3, h4⟩ := redo_empty m S h
    exact ⟨h1, h2, h4⟩

/-- Witness for C7: undo and redo on the fresh manager's empty stacks. -/
theorem C7_empty_stack_noop_witness :
    (Manager.init.viewU Scope.default = [] ∧
     ((undo Manager.init Scope.default).2.1 = none ∧
      (undo Manager.init Scope.default).2.2 = [] ∧
      (∀ s', (undo Manager.init Scope.default).1.viewU s' =
               Manager.init.viewU s' ∧
             (undo Manager.init Scope.default).1.viewR s' =
               Manager.init.viewR s'))) ∧
    (Manager.init.viewR Scope.default = [] ∧
     ((redo Manager.init Scope.default).2.1 = none ∧
      (redo Manager.init Scope.default).2.2 = [] ∧
      (∀ s', (redo Manager.init Scope.default).1.viewU s' =
               Manager.init.viewU s' ∧
             (redo Manager.init Scope.default).1.viewR s' =
               Manager.init.viewR s'))) :=
  ⟨⟨by decide,
    (C7_empty_stack_noop Manager.init Scope.default).1 (by decide)⟩,
   ⟨by decide,
    (C7_empty_stack_noop Manager.init Scope.default).2 (by decide)⟩⟩

/-- C8: `undos(S)` / `redos(S)` return the descriptions of the stored stack
in stored order, oldest first and not reversed: a newly recorded
transaction's description appears at the tail of `undos(S)`. -/
theorem C8_descriptions_stack_order (m : Manager) (S : Scope)
    (options : UndoRedoOptions)
    (h : ∃ e ∈ handleEntries m options.dependencies, e.2.effective = true) :
    (undos m S).2 = (m.viewU S).map Change.description ∧
    (redos m S).2 = (m.viewR S).map Change.description ∧
    (undos (endTransaction m options).1
        (options.scope.getD Scope.default)).2 =
      (undos m (options.scope.getD Scope.default)).2 ++
        [options.description] := by
  refine ⟨undos_val m S, redos_val m S, ?_⟩
  obtain ⟨_h1, _h2, h3, _h4, _h5⟩ :=
    endTransaction_success m options (effectiveIds_ne_nil _ h)
  rw [undos_val, undos_val, h3]
  simp

/-- Witness for C8: recording `"edit"` on the sample manager appends its
description to the end of `undos`. -/
theorem C8_descriptions_stack_order_witness :
    (∃ e ∈ handleEntries sampleManager sampleOptions.dependencies,
        e.2.effective = true) ∧
    ((undos sampleManager Scope.default).2 =
       (sampleManager.viewU Scope.default).map Change.description ∧
     (redos sampleManager Scope.default).2 =
       (sampleManager.viewR Scope.default).map Change.description ∧
     (undos (endTransaction sampleManager sampleOptions).1
         (sampleOptions.scope.getD Scope.default)).2 =
       (undos sampleManager (sampleOptions.scope.getD Scope.default)).2 ++
         [sampleOptions.description]) :=
  ⟨by decide,
   C8_descriptions_stack_order sampleManager Scope.default sampleOptions
     (by decide)⟩

/-- C9: the queries `undos`, `redos`, `canUndo` and `canRedo` never change
any stack's contents, their values are functions of the observed contents,
and repeating any of them returns the same value. -/
theorem C9_queries_pure (m : Manager) (S : Scope) :
    ((undos m S).2 = (m.viewU S).map Change.description ∧
     (redos m S).2 = (m.viewR S).map Change.description ∧
     (canUndo m S).2 = decide (0 < (m.viewU S).length) ∧
     (canRedo m S).2 = decide (0 < (m.viewR S).length)) ∧
    (∀ s', (undos m S).1.viewU s' = m.viewU s' ∧
           (undos m S).1.viewR s' = m.viewR s' ∧
           (redos m S).1.viewU s' = m.viewU s' ∧
           (redos m S).1.viewR s' = m.viewR s' ∧
           (canUndo m S).1.viewU s' = m.viewU s' ∧
           (canUndo m S).1.viewR s' = m.viewR s' ∧
           (canRedo m S).1.viewU s' = m.viewU s' ∧
           (canRedo m S).1.viewR s' = m.viewR s') ∧
    ((undos (undos m S).1 S).2 = (undos m S).2 ∧
     (redos (redos m S).1 S).2 = (redos m S).2 ∧
     (canUndo (canUndo m S).1 S).2 = (canUndo m S).2 ∧
     (canRedo (canRedo m S).1 S).2 = (canRedo m S).2) := by
  refine ⟨⟨undos_val m S, redos_val m S, canUndo_val m S, canRedo_val m S⟩,
    ?_, ?_, ?_, ?_, ?_⟩
  · intro s'
    exact ⟨getStacks_viewU m S s', getStacks_viewR m S s',
      getStacks_viewU m S s', getStacks_viewR m S s',
      getStacks_viewU m S s', getStacks_viewR m S s',
      getStacks_viewU m S s', getStacks_viewR m S s'⟩
  · rw [undos_val, undos_val]
    exact congrArg (List.map Change.description) (getStacks_viewU m S S)
  · rw [redos_val, redos_val]
    exact congrArg (List.map Change.description) (getStacks_viewR m S S)
  · rw [canUndo_val, canUndo_val]
    exact congrArg (fun l => decide (0 < l.length)) (getStacks_viewU m S S)
  · rw [canRedo_val, canRedo_val]
    exact congrArg (fun l => decide (0 < l.length)) (getStacks_viewR m S S)

/-- C10: if a participating handle's `undo(scope)` throws during `undo(S)`
on a non-empty stack, the operation aborts in a state where the popped
change has left the undo stack but was never pushed onto the redo stack;
symmetrically for `redo(S)`. -/
theorem C10_throw_loses_entry (m : Manager) (S : Scope)
    (lu lr : List Change) (cu cr : Change) :
    (m.viewU S = lu ++ [cu] → undoReplayThrows m.handles cu.ids = true →
      ∃ me, undoExc m S = Except.error me ∧
        me.viewU S = lu ∧ me.viewR S = m.viewR S) ∧
    (m.viewR S = lr ++ [cr] → redoReplayThrows m.handles cr.ids = true →
      ∃ me, redoExc m S = Except.error me ∧
        me.viewR S = lr ∧ me.viewU S = m.viewU S) := by
  constructor
  · intro h hth
    have hpop : popTail (getStacks m S).2.1 = some (cu, lu) := by
      rw [getStacks_val_u, h, popTail_concat]
    have hcond : undoReplayThrows (getStacks m S).1.handles cu.ids = true := by
      rw [getStacks_handles]; exact hth
    refine ⟨{ (getStacks m S).1 with
              undoStack := setStack (getStacks m S).1.undoStack S lu }, ?_, ?_, ?_⟩
    · simp only [undoExc, hpop, hcond, if_true]
    · simp [Manager.viewU, viewStack, setStack]
    · exact getStacks_viewR m S S
  · intro h hth
    have hpop : popTail (getStacks m S).2.2 = some (cr, lr) := by
      rw [getStacks_val_r, h, popTail_concat]
    have hcond : redoReplayThrows (getStacks m S).1.handles cr.ids = true := by
      rw [getStacks_handles]; exact hth
    refine ⟨{ (getStacks m S).1 with
              redoStack := setStack (getStacks m S).1.redoStack S lr }, ?_, ?_, ?_⟩
    · simp only [redoExc, hpop, hcond, if_true]
    · simp [Manager.viewR, viewStack, setStack]
    · exact getStacks_viewU m S S

/-- Witness for C10: the throwing manager aborts both replays and drops
`changeA` from the popped stack without pushing it onto the opposite one. -/
theorem C10_throw_loses_entry_witness :
    (throwManager.viewU Scope.default = [] ++ [changeA] ∧
     undoReplayThrows throwManager.handles changeA.ids = true ∧
     (∃ me, undoExc throwManager Scope.default = Except.error me ∧
        me.viewU Scope.default = [] ∧
        me.viewR Scope.default = throwManager.viewR Scope.default)) ∧
    (throwManager.viewR Scope.default = [] ++ [changeA] ∧
     redoReplayThrows throwManager.handles changeA.ids = true ∧
     (∃ me, redoExc throwManager Scope.default = Except.error me ∧
        me.viewR Scope.default = [] ∧
        me.viewU Scope.default = throwManager.viewU Scope.default)) :=
  ⟨⟨by decide, by decide,
    (C10_throw_loses_entry throwManager Scope.default [] [] changeA
      changeA).1 (by decide) (by decide)⟩,
   ⟨by decide, by decide,
    (C10_throw_loses_entry throwManager Scope.default [] [] changeA
      changeA).2 (by decide) (by decide)⟩⟩
